import Mathlib

/-!
# keep3r-beep3r: liveness-tracking and reconciliation engine

Shallow embedding of the core of the keep3r-beep3r job monitor
(src/index.ts and the refactored modules job_manager.ts /
block_processor.ts, which implement the same per-job logic).

Blocks and counters are JS bigint values, embedded as Int.
Timestamps (Date.now) are embedded as Int.  Reason strings are
embedded as lists of Unicode code points (List Nat), and reason
bytes as lists of byte values (List Nat), so that the platform
TextDecoder semantics can be modelled faithfully.

External chain reads (getMaster, workable, getLogs) and the alert
webhook are modelled as explicit inputs: per-job workable results,
a log-query oracle that either returns the event list or fails,
and a dispatch-success flag for sendDiscordAlert.
-/

namespace KeeperBeeper

/-- JobState record, from the JobState interface in src/index.ts
(address, lastWorkedBlock, lastCheckedBlock, consecutiveUnworkedBlocks,
lastUpdateTime). -/
structure JobState where
  address : String
  lastWorkedBlock : Int
  lastCheckedBlock : Int
  consecutiveUnworkedBlocks : Int
  lastUpdateTime : Int
deriving Repr, DecidableEq

/-! ## WHATWG TextDecoder, UTF-8
The source decodes reason bytes with `new TextDecoder().decode(...)`.
The default TextDecoder is the WHATWG UTF-8 decoder in non-fatal
mode: malformed subsequences never throw, they are replaced by
U+FFFD.  We embed that algorithm byte for byte. -/

/-- Decoder state of the WHATWG UTF-8 decoder: pending code point,
continuation bytes needed, continuation bytes seen, and the byte
range allowed for the next continuation byte. -/
structure Utf8State where
  codepoint : Nat
  needed : Nat
  seen : Nat
  lower : Nat
  upper : Nat
deriving Repr, DecidableEq

/-- Initial decoder state. -/
def utf8Init : Utf8State := ⟨0, 0, 0, 0x80, 0xBF⟩

/-- Handle one byte in the initial state (no sequence pending):
ASCII is emitted, lead bytes open a sequence, anything else is an
error replaced by U+FFFD. -/
def utf8Lead (b : Nat) : List Nat × Utf8State :=
  if b ≤ 0x7F then ([b], utf8Init)
  else if 0xC2 ≤ b ∧ b ≤ 0xDF then ([], ⟨b % 32, 1, 0, 0x80, 0xBF⟩)
  else if 0xE0 ≤ b ∧ b ≤ 0xEF then
    ([], ⟨b % 16, 2, 0, if b = 0xE0 then 0xA0 else 0x80,
          if b = 0xED then 0x9F else 0xBF⟩)
  else if 0xF0 ≤ b ∧ b ≤ 0xF4 then
    ([], ⟨b % 8, 3, 0, if b = 0xF0 then 0x90 else 0x80,
          if b = 0xF4 then 0x8F else 0xBF⟩)
  else ([0xFFFD], utf8Init)

/-- Handle one byte in an arbitrary decoder state.  A continuation
byte outside the allowed range is an error: U+FFFD is emitted and
the byte is reprocessed as a lead byte, as the WHATWG algorithm
prepends it back to the stream. -/
def utf8Step (st : Utf8State) (b : Nat) : List Nat × Utf8State :=
  if st.needed = 0 then utf8Lead b
  else if st.lower ≤ b ∧ b ≤ st.upper then
    let cp := st.codepoint * 64 + b % 64
    if st.seen + 1 = st.needed then ([cp], utf8Init)
    else ([], ⟨cp, st.needed, st.seen + 1, 0x80, 0xBF⟩)
  else
    let r := utf8Lead b
    (0xFFFD :: r.1, r.2)

/-- Run the decoder over a byte list; a truncated sequence at end of
input emits one final U+FFFD. -/
def utf8Run (st : Utf8State) : List Nat → List Nat
  | [] => if st.needed = 0 then [] else [0xFFFD]
  | b :: rest =>
    let r := utf8Step st b
    r.1 ++ utf8Run r.2 rest

/-- `new TextDecoder().decode(bytes)` (non-fatal mode): total, never
raises, replaces malformed input with U+FFFD. -/
def utf8Decode (bs : List Nat) : List Nat := utf8Run utf8Init bs

/-- Fatal-mode UTF-8 decode: none exactly when the byte list is not
valid UTF-8.  Used only to state which inputs "decode as UTF-8". -/
def utf8RunFatal (st : Utf8State) : List Nat → Option (List Nat)
  | [] => if st.needed = 0 then some [] else none
  | b :: rest =>
    if st.needed = 0 then
      if b ≤ 0x7F then (utf8RunFatal utf8Init rest).map (b :: ·)
      else
        let r := utf8Lead b
        if r.1 = [0xFFFD] then none else utf8RunFatal r.2 rest
    else if st.lower ≤ b ∧ b ≤ st.upper then
      let cp := st.codepoint * 64 + b % 64
      if st.seen + 1 = st.needed then (utf8RunFatal utf8Init rest).map (cp :: ·)
      else utf8RunFatal ⟨cp, st.needed, st.seen + 1, 0x80, 0xBF⟩ rest
    else none

/-- Whether a byte list is valid UTF-8. -/
def validUtf8 (bs : List Nat) : Bool := (utf8RunFatal utf8Init bs).isSome

/-- Code points of an ASCII Lean string, used to embed the string
literals of the source. -/
def strCp (s : String) : List Nat := s.toList.map Char.toNat

/-- The sentinel string the catch branch of the source builds:
Non-UTF8 args: followed by the hex rendering of the raw bytes
(template literal interpolation of the 0x-prefixed hex string). -/
def nonUtf8Sentinel (bs : List Nat) : List Nat :=
  strCp "Non-UTF8 args: " ++
    (48 :: 120 ::
      bs.foldr (fun b acc =>
        (if b / 16 < 10 then 48 + b / 16 else 87 + b / 16) ::
        (if b % 16 < 10 then 48 + b % 16 else 87 + b % 16) :: acc) [])

/-- IGNORED_ARGS_MESSAGES from src/index.ts (and config.ts). -/
def ignoredArgsMessages : List (List Nat) :=
  [strCp "No ilks ready", strCp "Flap not possible",
   strCp "No distribution", strCp "No work to do",
   strCp "shouldUpdate is false"]

/-! ## Chain-read oracles -/

/-- Outcome of a provider.getLogs call: the list of matching event
block numbers, or a thrown chain-read error. -/
inductive LogQuery where
  | ok (events : List Int)
  | err
deriving Repr, DecidableEq

/-- checkIfJobWasWorked from src/index.ts lines 122-149: queries the
Work-event logs of the job over [fromBlock, toBlock]; returns true
iff at least one event came back; the catch branch returns false on
a chain-read error.  The getLogs oracle stands for the provider,
already filtered to this job address and the Work topic. -/
def checkIfJobWasWorked (getLogs : Int → Int → LogQuery)
    (fromBlock toBlock : Int) : Bool :=
  match getLogs fromBlock toBlock with
  | .ok events => decide (0 < events.length)
  | .err => false

/-! ## Per-job block reconciliation (processBlockNumber body) -/

/-- Lines 291-313 of src/index.ts: capture previousCheckedBlock, set
lastCheckedBlock to the processed block, then either increment the
counter by one (canWork) or reconcile against the Work-event log
over [previousCheckedBlock + 1, blockNumber]. -/
def updateOnWorkable (getLogs : Int → Int → LogQuery)
    (blockNumber : Int) (js : JobState) (canWork : Bool) : JobState :=
  let previousCheckedBlock := js.lastCheckedBlock
  let js1 := { js with lastCheckedBlock := blockNumber }
  if canWork then
    { js1 with consecutiveUnworkedBlocks := js1.consecutiveUnworkedBlocks + 1 }
  else
    let wasWorked := checkIfJobWasWorked getLogs (previousCheckedBlock + 1) blockNumber
    if wasWorked then
      { js1 with lastWorkedBlock := blockNumber, consecutiveUnworkedBlocks := 0 }
    else
      { js1 with consecutiveUnworkedBlocks :=
          js1.consecutiveUnworkedBlocks + (blockNumber - previousCheckedBlock) }

/-- Lines 317-331 of src/index.ts: the threshold check.  Returns the
resulting state, the number of sendDiscordAlert calls, and false when
sendDiscordAlert threw (the exception aborts the per-block loop, so
the reset is skipped).  A suppressed reason (truthy argsString that
is a member of the ignore list) only logs. -/
def thresholdCheck (threshold : Int) (ignored : List (List Nat))
    (dispatchOk : Bool) (argsString : List Nat) (js : JobState) :
    JobState × Nat × Bool :=
  if threshold ≤ js.consecutiveUnworkedBlocks then
    if argsString ≠ [] ∧ argsString ∈ ignored then
      (js, 0, true)
    else if dispatchOk then
      ({ js with consecutiveUnworkedBlocks := 0 }, 1, true)
    else
      (js, 1, false)
  else (js, 0, true)

/-- One iteration of the per-job loop of processBlockNumber (lines
276-335): decode the reason bytes, reconcile the counters, stamp
lastUpdateTime, then run the threshold check. -/
def processJobStep (threshold : Int) (ignored : List (List Nat))
    (getLogs : Int → Int → LogQuery) (dispatchOk : Bool)
    (blockNumber now : Int) (js : JobState)
    (canWork : Bool) (argsBytes : List Nat) : JobState × Nat × Bool :=
  let argsString := utf8Decode argsBytes
  let js1 := updateOnWorkable getLogs blockNumber js canWork
  let js2 := { js1 with lastUpdateTime := now }
  thresholdCheck threshold ignored dispatchOk argsString js2

/-! ## Whole-block processing -/

/-- Per-job chain inputs for one processed block: the workable()
result (canWork, reason bytes), the log-query oracle for this job,
and whether sendDiscordAlert would succeed for this job. -/
structure JobInput where
  canWork : Bool
  argsBytes : List Nat
  getLogs : Int → Int → LogQuery
  dispatchOk : Bool

/-- The for-loop of processBlockNumber over the job records, one
JobInput per position.  When a step reports failure (a thrown
sendDiscordAlert) the exception propagates: the remaining records
are left untouched, exactly as the in-place mutation loop behaves. -/
def processJobs (threshold : Int) (ignored : List (List Nat))
    (blockNumber now : Int) (inputs : Nat → JobInput) :
    Nat → List JobState → List JobState × Nat
  | _, [] => ([], 0)
  | i, js :: rest =>
    let inp := inputs i
    let r := processJobStep threshold ignored inp.getLogs inp.dispatchOk
      blockNumber now js inp.canWork inp.argsBytes
    if r.2.2 then
      let rr := processJobs threshold ignored blockNumber now inputs (i + 1) rest
      (r.1 :: rr.1, r.2.1 + rr.2)
    else
      (r.1 :: rest, r.2.1)

/-- ethers.ZeroHash, the null leader identifier, embedded as 0. -/
def zeroHash : Nat := 0

/-- processBlockNumber from src/index.ts lines 252-339: read the
master network identifier; when it is ZeroHash skip the block
entirely, otherwise run the per-job loop.  Returns the store
contents and the number of sendDiscordAlert calls. -/
def processBlockNumber (threshold : Int) (ignored : List (List Nat))
    (master : Nat) (blockNumber now : Int) (inputs : Nat → JobInput)
    (states : List JobState) : List JobState × Nat :=
  if master = zeroHash then (states, 0)
  else processJobs threshold ignored blockNumber now inputs 0 states

/-! ## Bootstrap (initializeJobStates) -/

/-- Line 154 of src/index.ts: the lookback floor of the bootstrap
log query. -/
def bootstrapFromBlock (currentBlock : Int) : Int :=
  if 1000 ≤ currentBlock then currentBlock - 1000 else 0

/-- The per-event update of the lastWorkedBlocks map for one address:
set when absent or when the new event block is larger. -/
def maxStep (acc : Option Int) (b : Int) : Option Int :=
  match acc with
  | none => some b
  | some m => if m < b then some b else some m

/-- Lines 179-188 of src/index.ts restricted to one job address: the
lastWorkedBlocks map keeps, for each address, the highest event
block number seen so far. -/
def lastWorkedOf (events : List Int) : Option Int :=
  events.foldl maxStep none

/-- Lines 209-243 of src/index.ts for one job: seed the record from
the bootstrap query.  The if condition is JS truthiness on a bigint,
so an event at block 0 falls into the else branch of the counter
computation while the nullish-coalescing still keeps it as
lastWorkedBlock. -/
def initJobState (currentBlock now : Int) (addr : String)
    (events : List Int) : JobState :=
  let fromBlock := bootstrapFromBlock currentBlock
  let lastWorked := lastWorkedOf events
  let consecutiveUnworkedBlocks : Int :=
    match lastWorked with
    | some w => if w = 0 then currentBlock - fromBlock else currentBlock - w
    | none => currentBlock - fromBlock
  { address := addr
    lastWorkedBlock := lastWorked.getD fromBlock
    lastCheckedBlock := currentBlock - 1
    consecutiveUnworkedBlocks := consecutiveUnworkedBlocks
    lastUpdateTime := now }

/-- initializeJobStates, lines 151-250 of src/index.ts: one record
per job, each seeded from its own Work events of the [F, H] query.
The workable() calls the source issues during initialization only
feed log lines, not the records, and the function contains no
sendDiscordAlert call, so its dispatch count is zero by
construction. -/
def initializeJobStates (currentBlock now : Int)
    (jobs : List (String × List Int)) : List JobState × Nat :=
  (jobs.map fun j => initJobState currentBlock now j.1 j.2, 0)

/-! ## Janitor and store lifecycle -/

/-- cleanupInactiveJobs, lines 384-393 of src/index.ts: delete every
record whose age exceeds MAX_JOB_AGE, keep the rest. -/
def cleanupInactiveJobs (maxJobAge currentTime : Int)
    (states : List JobState) : List JobState :=
  states.filter fun s => ¬ (maxJobAge < currentTime - s.lastUpdateTime)

/-- The operations that touch the job state store after bootstrap:
a block reconciliation tick or a janitor tick. -/
inductive StoreOp where
  | block (threshold : Int) (ignored : List (List Nat)) (master : Nat)
      (blockNumber now : Int) (inputs : Nat → JobInput)
  | cleanup (maxJobAge currentTime : Int)

/-- Apply one store operation. -/
def applyOp (states : List JobState) : StoreOp → List JobState
  | .block threshold ignored master blockNumber now inputs =>
    (processBlockNumber threshold ignored master blockNumber now inputs states).1
  | .cleanup maxJobAge currentTime =>
    cleanupInactiveJobs maxJobAge currentTime states

/-- Apply a sequence of store operations in order. -/
def applyOps (states : List JobState) (ops : List StoreOp) : List JobState :=
  ops.foldl applyOp states

/-- The set of tracked addresses: the keys of the store. -/
def trackedAddresses (states : List JobState) : List String :=
  states.map JobState.address

/-! ## Helper lemmas -/

lemma foldl_maxStep_some {l : List Int} {acc : Option Int} {w : Int}
    (h : l.foldl maxStep acc = some w) : acc = some w ∨ w ∈ l := by
  induction l generalizing acc with
  | nil => exact Or.inl h
  | cons b l ih =>
    simp only [List.foldl_cons] at h
    rcases ih h with h1 | h1
    · cases acc with
      | none =>
        simp only [maxStep, Option.some.injEq] at h1
        exact Or.inr (by simp [h1])
      | some m =>
        simp only [maxStep] at h1
        by_cases hmb : m < b
        · rw [if_pos hmb] at h1
          simp only [Option.some.injEq] at h1
          exact Or.inr (by simp [h1])
        · rw [if_neg hmb] at h1
          exact Or.inl h1
    · exact Or.inr (List.mem_cons_of_mem _ h1)

lemma foldl_maxStep_ge {l : List Int} {acc : Option Int} {w : Int}
    (h : l.foldl maxStep acc = some w) :
    (∀ e ∈ l, e ≤ w) ∧ (∀ m, acc = some m → m ≤ w) := by
  induction l generalizing acc with
  | nil =>
    refine ⟨by simp, fun m hm => ?_⟩
    simp only [List.foldl_nil] at h
    rw [hm] at h
    exact le_of_eq (Option.some_injective _ h)
  | cons b l ih =>
    simp only [List.foldl_cons] at h
    have hstep := ih h
    have hble : b ≤ w := by
      cases acc with
      | none => exact hstep.2 b rfl
      | some m =>
        by_cases hmb : m < b
        · exact hstep.2 b (by simp [maxStep, hmb])
        · exact le_trans (le_of_not_lt hmb) (hstep.2 m (by simp [maxStep, hmb]))
    constructor
    · intro e he
      rcases List.mem_cons.mp he with he | he
      · rw [he]; exact hble
      · exact hstep.1 e he
    · intro m hm
      cases acc with
      | none => exact Option.noConfusion hm
      | some m' =>
        have hmm : m' = m := Option.some_injective _ hm
        by_cases hmb : m' < b
        · rw [← hmm]; exact le_trans (le_of_lt hmb) hble
        · rw [← hmm]; exact hstep.2 m' (by simp [maxStep, hmb])

/-- The bootstrap map lookup returns an event block of the job. -/
lemma lastWorkedOf_mem {events : List Int} {w : Int}
    (h : lastWorkedOf events = some w) : w ∈ events := by
  rcases foldl_maxStep_some h with h1 | h1
  · exact absurd h1 (by simp)
  · exact h1

/-- The bootstrap map lookup returns the highest event block. -/
lemma lastWorkedOf_ge {events : List Int} {w : Int}
    (h : lastWorkedOf events = some w) : ∀ e ∈ events, e ≤ w :=
  (foldl_maxStep_ge h).1

lemma foldl_maxStep_isSome (l : List Int) (m : Int) :
    (l.foldl maxStep (some m)).isSome := by
  induction l generalizing m with
  | nil => rfl
  | cons b l ih =>
    simp only [List.foldl_cons, maxStep]
    by_cases hmb : m < b
    · simpa [hmb] using ih b
    · simpa [hmb] using ih m

/-- The bootstrap map lookup is empty exactly on an empty event list. -/
lemma lastWorkedOf_eq_none {events : List Int} :
    lastWorkedOf events = none ↔ events = [] := by
  constructor
  · intro h
    cases events with
    | nil => rfl
    | cons b l =>
      exfalso
      have hs := foldl_maxStep_isSome l b
      unfold lastWorkedOf at h
      simp only [List.foldl_cons, maxStep] at h
      rw [h] at hs
      exact Bool.noConfusion hs
  · intro h; subst h; rfl

/-- Field behaviour of updateOnWorkable: the watermark becomes the
processed block, the worked block is kept or set to the processed
block, the address and timestamp are untouched. -/
lemma updateOnWorkable_fields (getLogs : Int → Int → LogQuery)
    (blockNumber : Int) (js : JobState) (canWork : Bool) :
    (updateOnWorkable getLogs blockNumber js canWork).lastCheckedBlock = blockNumber ∧
    ((updateOnWorkable getLogs blockNumber js canWork).lastWorkedBlock =
        js.lastWorkedBlock ∨
      (updateOnWorkable getLogs blockNumber js canWork).lastWorkedBlock = blockNumber) ∧
    (updateOnWorkable getLogs blockNumber js canWork).address = js.address := by
  cases canWork
  · by_cases hw : checkIfJobWasWorked getLogs (js.lastCheckedBlock + 1) blockNumber <;>
      simp [updateOnWorkable, hw]
  · simp [updateOnWorkable]

/-- Counter behaviour of updateOnWorkable: plus one when canWork,
reset to zero on a found Work event, plus the gap otherwise. -/
lemma updateOnWorkable_cu (getLogs : Int → Int → LogQuery)
    (blockNumber : Int) (js : JobState) (canWork : Bool) :
    (canWork = true ∧
      (updateOnWorkable getLogs blockNumber js canWork).consecutiveUnworkedBlocks =
        js.consecutiveUnworkedBlocks + 1) ∨
    (canWork = false ∧
      checkIfJobWasWorked getLogs (js.lastCheckedBlock + 1) blockNumber = true ∧
      (updateOnWorkable getLogs blockNumber js canWork).consecutiveUnworkedBlocks = 0) ∨
    (canWork = false ∧
      checkIfJobWasWorked getLogs (js.lastCheckedBlock + 1) blockNumber = false ∧
      (updateOnWorkable getLogs blockNumber js canWork).consecutiveUnworkedBlocks =
        js.consecutiveUnworkedBlocks + (blockNumber - js.lastCheckedBlock)) := by
  cases canWork
  · by_cases hw : checkIfJobWasWorked getLogs (js.lastCheckedBlock + 1) blockNumber
    · exact Or.inr (Or.inl ⟨rfl, hw, by simp [updateOnWorkable, hw]⟩)
    · exact Or.inr (Or.inr ⟨rfl, by simpa using hw, by
        simp [updateOnWorkable, Bool.eq_false_iff.mpr hw]⟩)
  · exact Or.inl ⟨rfl, by simp [updateOnWorkable]⟩

/-- The threshold check never touches the watermark, the worked
block, the address or the timestamp. -/
lemma thresholdCheck_fields (threshold : Int) (ignored : List (List Nat))
    (dispatchOk : Bool) (argsString : List Nat) (js : JobState) :
    (thresholdCheck threshold ignored dispatchOk argsString js).1.lastCheckedBlock =
      js.lastCheckedBlock ∧
    (thresholdCheck threshold ignored dispatchOk argsString js).1.lastWorkedBlock =
      js.lastWorkedBlock ∧
    (thresholdCheck threshold ignored dispatchOk argsString js).1.address =
      js.address ∧
    (thresholdCheck threshold ignored dispatchOk argsString js).1.lastUpdateTime =
      js.lastUpdateTime := by
  unfold thresholdCheck
  repeat' split
  all_goals simp

/-- The threshold check either keeps the counter, or resets it to
zero while making exactly one successful dispatch. -/
lemma thresholdCheck_cu (threshold : Int) (ignored : List (List Nat))
    (dispatchOk : Bool) (argsString : List Nat) (js : JobState) :
    (thresholdCheck threshold ignored dispatchOk argsString js).1.consecutiveUnworkedBlocks =
      js.consecutiveUnworkedBlocks ∨
    ((thresholdCheck threshold ignored dispatchOk argsString js).1.consecutiveUnworkedBlocks = 0 ∧
      (thresholdCheck threshold ignored dispatchOk argsString js).2.1 = 1 ∧
      dispatchOk = true) := by
  unfold thresholdCheck
  repeat' split
  all_goals simp_all

/-- Every entry of the configured suppression list is a nonempty
string, so membership implies JS truthiness of the reason. -/
lemma mem_ignored_ne_nil {s : List Nat} (h : s ∈ ignoredArgsMessages) :
    s ≠ [] := by
  fin_cases h <;> decide

/-! ## Claim theorems -/

/-- C1: for every tracked job and processed block, when the workable
predicate reports canWork = false the processor consults the Work
event log over [lastCheckedBlock + 1, blockNumber]; a found event
sets lastWorkedBlock to the processed block and resets the counter
to zero, and an empty result increments the counter by the gap
blockNumber - lastCheckedBlock, with lastCheckedBlock read before
the update. -/
theorem needsWork_false_reconciles_via_work_log
    (getLogs : Int → Int → LogQuery) (blockNumber : Int) (js : JobState) :
    (checkIfJobWasWorked getLogs (js.lastCheckedBlock + 1) blockNumber = true →
      (updateOnWorkable getLogs blockNumber js false).lastWorkedBlock = blockNumber ∧
      (updateOnWorkable getLogs blockNumber js false).consecutiveUnworkedBlocks = 0) ∧
    (checkIfJobWasWorked getLogs (js.lastCheckedBlock + 1) blockNumber = false →
      (updateOnWorkable getLogs blockNumber js false).consecutiveUnworkedBlocks =
        js.consecutiveUnworkedBlocks + (blockNumber - js.lastCheckedBlock) ∧
      (updateOnWorkable getLogs blockNumber js false).lastWorkedBlock =
        js.lastWorkedBlock) := by
  constructor <;> intro h <;> simp [updateOnWorkable, h]

/-- Witness for C1 at a concrete record and oracle: an event in the
range resets the counter and stamps the worked block. -/
theorem needsWork_false_reconciles_via_work_log_witness :
    (updateOnWorkable (fun _ _ => LogQuery.ok [7]) 10
        (JobState.mk "a" 3 5 2 0) false).lastWorkedBlock = 10 ∧
    (updateOnWorkable (fun _ _ => LogQuery.ok [7]) 10
        (JobState.mk "a" 3 5 2 0) false).consecutiveUnworkedBlocks = 0 :=
  (needsWork_false_reconciles_via_work_log (fun _ _ => LogQuery.ok [7]) 10
    (JobState.mk "a" 3 5 2 0)).1 (by decide)

/-- C2 counterexample: with lastCheckedBlock = 5 and processed block
8 (a gap of 3) and canWork = true, the code increments the counter
by 1, not by the gap, refuting the claimed increment. -/
theorem canWork_increment_counterexample :
    ¬ ((updateOnWorkable (fun _ _ => LogQuery.ok []) 8
          (JobState.mk "a" 0 5 0 0) true).consecutiveUnworkedBlocks =
        (JobState.mk "a" 0 5 0 0).consecutiveUnworkedBlocks + (8 - 5)) := by
  decide

/-- C2 amended: when canWork = true the counter is incremented by
exactly one, whatever the gap to the previous checked block;
lastCheckedBlock becomes the processed block and lastWorkedBlock is
untouched. -/
theorem canWork_increments_by_one
    (getLogs : Int → Int → LogQuery) (blockNumber : Int) (js : JobState) :
    (updateOnWorkable getLogs blockNumber js true).consecutiveUnworkedBlocks =
      js.consecutiveUnworkedBlocks + 1 ∧
    (updateOnWorkable getLogs blockNumber js true).lastCheckedBlock = blockNumber ∧
    (updateOnWorkable getLogs blockNumber js true).lastWorkedBlock =
      js.lastWorkedBlock := by
  simp [updateOnWorkable]

/-- C5: a block whose master network identifier is the zero hash is
skipped entirely: the store is returned unchanged and no alert is
dispatched. -/
theorem zero_master_skips_block
    (threshold : Int) (ignored : List (List Nat)) (blockNumber now : Int)
    (inputs : Nat → JobInput) (states : List JobState) :
    processBlockNumber threshold ignored zeroHash blockNumber now inputs states =
      (states, 0) := by
  simp [processBlockNumber]

/-- C8 counterexample: a failing log query does not leave the record
unchanged: the counter is incremented and the watermark advanced. -/
theorem log_error_mutation_counterexample :
    (updateOnWorkable (fun _ _ => LogQuery.err) 11
        (JobState.mk "a" 3 10 0 0) false).consecutiveUnworkedBlocks ≠
      (JobState.mk "a" 3 10 0 0).consecutiveUnworkedBlocks ∧
    (updateOnWorkable (fun _ _ => LogQuery.err) 11
        (JobState.mk "a" 3 10 0 0) false).lastCheckedBlock ≠
      (JobState.mk "a" 3 10 0 0).lastCheckedBlock := by
  decide

/-- C8 amended: when the Work-event log query fails,
checkIfJobWasWorked swallows the error and reports false, and the
reconciliation step treats the job exactly as unworked: the counter
is incremented by the gap and lastCheckedBlock advances to the
processed block, so the failed range is not re-queried later. -/
theorem log_error_treated_as_unworked
    (getLogs : Int → Int → LogQuery) (blockNumber : Int) (js : JobState)
    (h : getLogs (js.lastCheckedBlock + 1) blockNumber = LogQuery.err) :
    checkIfJobWasWorked getLogs (js.lastCheckedBlock + 1) blockNumber = false ∧
    (updateOnWorkable getLogs blockNumber js false).consecutiveUnworkedBlocks =
      js.consecutiveUnworkedBlocks + (blockNumber - js.lastCheckedBlock) ∧
    (updateOnWorkable getLogs blockNumber js false).lastCheckedBlock = blockNumber ∧
    (updateOnWorkable getLogs blockNumber js false).lastWorkedBlock =
      js.lastWorkedBlock := by
  have hw : checkIfJobWasWorked getLogs (js.lastCheckedBlock + 1) blockNumber = false := by
    simp [checkIfJobWasWorked, h]
  exact ⟨hw, by simp [updateOnWorkable, hw]⟩

/-- Witness for the amended C8 at a concrete record with an oracle
that always fails. -/
theorem log_error_treated_as_unworked_witness :
    checkIfJobWasWorked (fun _ _ => LogQuery.err)
      ((JobState.mk "a" 3 10 0 0).lastCheckedBlock + 1) 11 = false ∧
    (updateOnWorkable (fun _ _ => LogQuery.err) 11
        (JobState.mk "a" 3 10 0 0) false).consecutiveUnworkedBlocks =
      (JobState.mk "a" 3 10 0 0).consecutiveUnworkedBlocks + (11 - 10) ∧
    (updateOnWorkable (fun _ _ => LogQuery.err) 11
        (JobState.mk "a" 3 10 0 0) false).lastCheckedBlock = 11 ∧
    (updateOnWorkable (fun _ _ => LogQuery.err) 11
        (JobState.mk "a" 3 10 0 0) false).lastWorkedBlock =
      (JobState.mk "a" 3 10 0 0).lastWorkedBlock :=
  log_error_treated_as_unworked (fun _ _ => LogQuery.err) 11
    (JobState.mk "a" 3 10 0 0) rfl

/-- C9: the byte 0x80 is not valid UTF-8, yet the default TextDecoder
used by the code never raises: it decodes it to the replacement
character U+FFFD, so the reason string the code uses is the
replacement text and not the sentinel Non-UTF8 string the claim and
the repository test expect. -/
theorem nonutf8_bytes_decode_to_replacement :
    validUtf8 [0x80] = false ∧
    utf8Decode [0x80] = [0xFFFD] ∧
    utf8Decode [0x80] ≠ nonUtf8Sentinel [0x80] := by
  decide

/-- Reduction of the threshold check in the suppressed branch. -/
lemma thresholdCheck_suppressed (threshold : Int) (ignored : List (List Nat))
    (dispatchOk : Bool) (argsString : List Nat) (js : JobState)
    (hth : threshold ≤ js.consecutiveUnworkedBlocks)
    (hne : argsString ≠ []) (hmem : argsString ∈ ignored) :
    thresholdCheck threshold ignored dispatchOk argsString js = (js, 0, true) := by
  unfold thresholdCheck
  rw [if_pos hth, if_pos ⟨hne, hmem⟩]

/-- Reduction of the threshold check in the alert branch. -/
lemma thresholdCheck_alert (threshold : Int) (ignored : List (List Nat))
    (dispatchOk : Bool) (argsString : List Nat) (js : JobState)
    (hth : threshold ≤ js.consecutiveUnworkedBlocks)
    (hns : ¬ (argsString ≠ [] ∧ argsString ∈ ignored)) :
    thresholdCheck threshold ignored dispatchOk argsString js =
      if dispatchOk then ({ js with consecutiveUnworkedBlocks := 0 }, 1, true)
      else (js, 1, false) := by
  unfold thresholdCheck
  rw [if_pos hth, if_neg hns]

/-- C3: when the counter has reached the (positive) threshold after
the reconciliation update, a decoded reason that is an entry of the
configured suppression list produces zero dispatch calls and leaves
the counter untouched, while any other reason produces exactly one
dispatch call and the counter ends at zero exactly when that
dispatch succeeds. -/
theorem threshold_alert_dispatch_and_suppression
    (threshold : Int) (getLogs : Int → Int → LogQuery) (dispatchOk : Bool)
    (blockNumber now : Int) (js : JobState) (canWork : Bool) (argsBytes : List Nat)
    (hpos : 0 < threshold)
    (hreach : threshold ≤
      (updateOnWorkable getLogs blockNumber js canWork).consecutiveUnworkedBlocks) :
    (utf8Decode argsBytes ∈ ignoredArgsMessages →
      (processJobStep threshold ignoredArgsMessages getLogs dispatchOk blockNumber now
          js canWork argsBytes).2.1 = 0 ∧
      (processJobStep threshold ignoredArgsMessages getLogs dispatchOk blockNumber now
          js canWork argsBytes).1.consecutiveUnworkedBlocks =
        (updateOnWorkable getLogs blockNumber js canWork).consecutiveUnworkedBlocks) ∧
    (utf8Decode argsBytes ∉ ignoredArgsMessages →
      (processJobStep threshold ignoredArgsMessages getLogs dispatchOk blockNumber now
          js canWork argsBytes).2.1 = 1 ∧
      ((processJobStep threshold ignoredArgsMessages getLogs dispatchOk blockNumber now
          js canWork argsBytes).1.consecutiveUnworkedBlocks = 0 ↔ dispatchOk = true)) := by
  have hstep : processJobStep threshold ignoredArgsMessages getLogs dispatchOk
      blockNumber now js canWork argsBytes =
      thresholdCheck threshold ignoredArgsMessages dispatchOk (utf8Decode argsBytes)
        { updateOnWorkable getLogs blockNumber js canWork with lastUpdateTime := now } := rfl
  have hth : threshold ≤
      ({ updateOnWorkable getLogs blockNumber js canWork with
          lastUpdateTime := now } : JobState).consecutiveUnworkedBlocks := hreach
  constructor
  · intro hmem
    rw [hstep, thresholdCheck_suppressed _ _ _ _ _ hth (mem_ignored_ne_nil hmem) hmem]
    exact ⟨rfl, rfl⟩
  · intro hmem
    rw [hstep, thresholdCheck_alert _ _ _ _ _ hth (fun hc => hmem hc.2)]
    cases dispatchOk
    · refine ⟨rfl, ?_⟩
      simp only [if_neg Bool.false_ne_true]
      constructor
      · intro hc
        exfalso
        have := hth
        omega
      · intro hc
        exact Bool.noConfusion hc
    · exact ⟨rfl, by simp⟩

/-- Witness for C3: a job at counter nine hits threshold ten at the
next block with the suppressed reason No work to do; no dispatch
happens and the counter keeps its value. -/
theorem threshold_suppression_witness :
    (processJobStep 10 ignoredArgsMessages (fun _ _ => LogQuery.ok []) true 5 0
        (JobState.mk "a" 0 4 9 0) true (strCp "No work to do")).2.1 = 0 ∧
    (processJobStep 10 ignoredArgsMessages (fun _ _ => LogQuery.ok []) true 5 0
        (JobState.mk "a" 0 4 9 0) true (strCp "No work to do")).1.consecutiveUnworkedBlocks =
      (updateOnWorkable (fun _ _ => LogQuery.ok []) 5
        (JobState.mk "a" 0 4 9 0) true).consecutiveUnworkedBlocks :=
  (threshold_alert_dispatch_and_suppression 10 (fun _ _ => LogQuery.ok []) true 5 0
    (JobState.mk "a" 0 4 9 0) true (strCp "No work to do")
    (by decide) (by decide)).1 (by decide)

/-- C4: bootstrap uses the lookback floor max 0 (H - 1000); a job
with no Work event in the window is seeded at the floor with counter
H - F, a job whose highest event block is w is seeded with
lastWorkedBlock w and counter H - w, and initializeJobStates performs
no alert dispatch. -/
theorem bootstrap_seeds_records (H now : Int) (addr : String) (events : List Int)
    (h0 : 0 ≤ H)
    (hin : ∀ e ∈ events, bootstrapFromBlock H ≤ e ∧ e ≤ H) :
    bootstrapFromBlock H = max 0 (H - 1000) ∧
    (lastWorkedOf events = none ↔ events = []) ∧
    (events = [] →
      (initJobState H now addr events).lastWorkedBlock = bootstrapFromBlock H ∧
      (initJobState H now addr events).consecutiveUnworkedBlocks =
        H - bootstrapFromBlock H) ∧
    (∀ w, lastWorkedOf events = some w →
      (w ∈ events ∧ ∀ e ∈ events, e ≤ w) ∧
      (initJobState H now addr events).lastWorkedBlock = w ∧
      (initJobState H now addr events).consecutiveUnworkedBlocks = H - w) ∧
    (∀ jobs, (initializeJobStates H now jobs).2 = 0) := by
  refine ⟨?_, lastWorkedOf_eq_none, ?_, ?_, fun jobs => rfl⟩
  · unfold bootstrapFromBlock
    split <;> omega
  · intro he
    subst he
    simp [initJobState, lastWorkedOf]
  · intro w hw
    have hmem := lastWorkedOf_mem hw
    have hge := lastWorkedOf_ge hw
    refine ⟨⟨hmem, hge⟩, ?_, ?_⟩
    · simp [initJobState, hw]
    · by_cases hw0 : w = 0
      · have h1 : bootstrapFromBlock H ≤ 0 := hw0 ▸ (hin w hmem).1
        have h2 : 0 ≤ bootstrapFromBlock H := by
          unfold bootstrapFromBlock
          split <;> omega
        have hF : bootstrapFromBlock H = 0 := le_antisymm h1 h2
        simp [initJobState, hw, hw0, hF]
      · simp [initJobState, hw, hw0]

/-- Witness for C4: bootstrap at height 2000 with Work events at
blocks 1500 and 1999 seeds lastWorkedBlock 1999 and counter 1. -/
theorem bootstrap_seeds_records_witness :
    ((1999 : Int) ∈ [(1500 : Int), 1999] ∧ ∀ e ∈ [(1500 : Int), 1999], e ≤ 1999) ∧
    (initJobState 2000 0 "a" [1500, 1999]).lastWorkedBlock = 1999 ∧
    (initJobState 2000 0 "a" [1500, 1999]).consecutiveUnworkedBlocks = 2000 - 1999 :=
  (bootstrap_seeds_records 2000 0 "a" [1500, 1999] (by decide)
    (by decide)).2.2.2.1 1999 (by decide)

/-- C6: the unworked counter is never negative, any decrease lands
exactly at zero, and a zero outcome comes only from a confirmed Work
event or a successful alert dispatch: this holds for every bootstrap
seeding (events inside the lookback window) and for every
reconciliation step of a block past the watermark. -/
theorem counter_nonneg_and_reset_exact :
    (∀ (H now : Int) (addr : String) (events : List Int), 0 ≤ H →
      (∀ e ∈ events, bootstrapFromBlock H ≤ e ∧ e ≤ H) →
      0 ≤ (initJobState H now addr events).consecutiveUnworkedBlocks) ∧
    (∀ (threshold : Int) (ignored : List (List Nat))
        (getLogs : Int → Int → LogQuery) (dispatchOk : Bool)
        (blockNumber now : Int) (js : JobState) (canWork : Bool)
        (argsBytes : List Nat),
      0 ≤ js.consecutiveUnworkedBlocks →
      js.lastCheckedBlock < blockNumber →
      0 ≤ (processJobStep threshold ignored getLogs dispatchOk blockNumber now js
            canWork argsBytes).1.consecutiveUnworkedBlocks ∧
      ((processJobStep threshold ignored getLogs dispatchOk blockNumber now js
            canWork argsBytes).1.consecutiveUnworkedBlocks <
          js.consecutiveUnworkedBlocks →
        (processJobStep threshold ignored getLogs dispatchOk blockNumber now js
            canWork argsBytes).1.consecutiveUnworkedBlocks = 0) ∧
      ((processJobStep threshold ignored getLogs dispatchOk blockNumber now js
            canWork argsBytes).1.consecutiveUnworkedBlocks = 0 →
        (canWork = false ∧
          checkIfJobWasWorked getLogs (js.lastCheckedBlock + 1) blockNumber = true) ∨
        ((processJobStep threshold ignored getLogs dispatchOk blockNumber now js
            canWork argsBytes).2.1 = 1 ∧ dispatchOk = true))) := by
  constructor
  · intro H now addr events h0 hin
    have hFH : bootstrapFromBlock H ≤ H := by
      unfold bootstrapFromBlock
      split <;> omega
    cases hw : lastWorkedOf events with
    | none =>
      simp [initJobState, hw]
      omega
    | some w =>
      have h2 := (hin w (lastWorkedOf_mem hw)).2
      simp only [initJobState, hw]
      by_cases hw0 : w = 0 <;> simp [hw0] <;> omega
  · intro threshold ignored getLogs dispatchOk blockNumber now js canWork argsBytes h0 hlt
    have hstep : processJobStep threshold ignored getLogs dispatchOk blockNumber now
        js canWork argsBytes =
        thresholdCheck threshold ignored dispatchOk (utf8Decode argsBytes)
          { updateOnWorkable getLogs blockNumber js canWork with
            lastUpdateTime := now } := rfl
    have hcu2 : ({ updateOnWorkable getLogs blockNumber js canWork with
        lastUpdateTime := now } : JobState).consecutiveUnworkedBlocks =
        (updateOnWorkable getLogs blockNumber js canWork).consecutiveUnworkedBlocks := rfl
    rw [hstep]
    rcases thresholdCheck_cu threshold ignored dispatchOk (utf8Decode argsBytes)
        { updateOnWorkable getLogs blockNumber js canWork with lastUpdateTime := now }
      with htc | ⟨htc0, htc1, htcok⟩
    · rw [htc, hcu2]
      rcases updateOnWorkable_cu getLogs blockNumber js canWork with
        ⟨hcw, hucu⟩ | ⟨hcw, hwk, hucu⟩ | ⟨hcw, hwk, hucu⟩
      · rw [hucu]
        refine ⟨by omega, fun hc => by omega, fun hc => by omega⟩
      · rw [hucu]
        exact ⟨le_refl 0, fun _ => rfl, fun _ => Or.inl ⟨hcw, hwk⟩⟩
      · rw [hucu]
        refine ⟨by omega, fun hc => by omega, fun hc => by omega⟩
    · rw [htc0, htc1]
      exact ⟨le_refl 0, fun _ => rfl, fun _ => Or.inr ⟨rfl, htcok⟩⟩

/-- Witness for C6 at a concrete step: a block two past the
watermark with canWork true keeps the counter non-negative. -/
theorem counter_nonneg_and_reset_exact_witness :
    0 ≤ (processJobStep 10 ignoredArgsMessages (fun _ _ => LogQuery.ok []) true 7 0
          (JobState.mk "a" 0 5 3 0) true []).1.consecutiveUnworkedBlocks ∧
    ((processJobStep 10 ignoredArgsMessages (fun _ _ => LogQuery.ok []) true 7 0
          (JobState.mk "a" 0 5 3 0) true []).1.consecutiveUnworkedBlocks <
        (JobState.mk "a" 0 5 3 0).consecutiveUnworkedBlocks →
      (processJobStep 10 ignoredArgsMessages (fun _ _ => LogQuery.ok []) true 7 0
          (JobState.mk "a" 0 5 3 0) true []).1.consecutiveUnworkedBlocks = 0) ∧
    ((processJobStep 10 ignoredArgsMessages (fun _ _ => LogQuery.ok []) true 7 0
          (JobState.mk "a" 0 5 3 0) true []).1.consecutiveUnworkedBlocks = 0 →
      (true = false ∧
        checkIfJobWasWorked (fun _ _ => LogQuery.ok [])
          ((JobState.mk "a" 0 5 3 0).lastCheckedBlock + 1) 7 = true) ∨
      ((processJobStep 10 ignoredArgsMessages (fun _ _ => LogQuery.ok []) true 7 0
          (JobState.mk "a" 0 5 3 0) true []).2.1 = 1 ∧ true = true)) :=
  counter_nonneg_and_reset_exact.2 10 ignoredArgsMessages (fun _ _ => LogQuery.ok [])
    true 7 0 (JobState.mk "a" 0 5 3 0) true [] (by decide) (by decide)

/-- C7 counterexample: at bootstrap height 5 a Work event at block 5
is inside the lookback window, yet the seeded record has
lastWorkedBlock 5 and lastCheckedBlock 4, violating the claimed
invariant immediately after bootstrap. -/
theorem watermark_invariant_counterexample :
    (∀ e ∈ [(5 : Int)], bootstrapFromBlock 5 ≤ e ∧ e ≤ 5) ∧
    ¬ ((initJobState 5 0 "a" [5]).lastWorkedBlock ≤
        (initJobState 5 0 "a" [5]).lastCheckedBlock) := by
  decide

/-- C7 amended: bootstrap only guarantees
lastCheckedBlock ≥ lastWorkedBlock - 1 (the slack case being a Work
event at the bootstrap height itself), and every reconciliation step
of a block past the watermark restores the full invariant
lastCheckedBlock ≥ lastWorkedBlock. -/
theorem watermark_invariant_amended :
    (∀ (H now : Int) (addr : String) (events : List Int), 0 ≤ H →
      (∀ e ∈ events, bootstrapFromBlock H ≤ e ∧ e ≤ H) →
      (initJobState H now addr events).lastWorkedBlock - 1 ≤
        (initJobState H now addr events).lastCheckedBlock) ∧
    (∀ (threshold : Int) (ignored : List (List Nat))
        (getLogs : Int → Int → LogQuery) (dispatchOk : Bool)
        (blockNumber now : Int) (js : JobState) (canWork : Bool)
        (argsBytes : List Nat),
      js.lastWorkedBlock - 1 ≤ js.lastCheckedBlock →
      js.lastCheckedBlock < blockNumber →
      (processJobStep threshold ignored getLogs dispatchOk blockNumber now js
          canWork argsBytes).1.lastWorkedBlock ≤
        (processJobStep threshold ignored getLogs dispatchOk blockNumber now js
          canWork argsBytes).1.lastCheckedBlock) := by
  constructor
  · intro H now addr events h0 hin
    have hFH : bootstrapFromBlock H ≤ H := by
      unfold bootstrapFromBlock
      split <;> omega
    cases hw : lastWorkedOf events with
    | none =>
      simp [initJobState, hw]
      omega
    | some w =>
      have h2 := (hin w (lastWorkedOf_mem hw)).2
      simp [initJobState, hw]
      omega
  · intro threshold ignored getLogs dispatchOk blockNumber now js canWork argsBytes hinv hlt
    have hstep : processJobStep threshold ignored getLogs dispatchOk blockNumber now
        js canWork argsBytes =
        thresholdCheck threshold ignored dispatchOk (utf8Decode argsBytes)
          { updateOnWorkable getLogs blockNumber js canWork with
            lastUpdateTime := now } := rfl
    obtain ⟨huc, huw, -⟩ := updateOnWorkable_fields getLogs blockNumber js canWork
    obtain ⟨htc, htw, -, -⟩ := thresholdCheck_fields threshold ignored dispatchOk
      (utf8Decode argsBytes)
      { updateOnWorkable getLogs blockNumber js canWork with lastUpdateTime := now }
    have hjc : ({ updateOnWorkable getLogs blockNumber js canWork with
        lastUpdateTime := now } : JobState).lastCheckedBlock =
        (updateOnWorkable getLogs blockNumber js canWork).lastCheckedBlock := rfl
    have hjw : ({ updateOnWorkable getLogs blockNumber js canWork with
        lastUpdateTime := now } : JobState).lastWorkedBlock =
        (updateOnWorkable getLogs blockNumber js canWork).lastWorkedBlock := rfl
    rw [hstep, htc, htw, hjc, hjw, huc]
    rcases huw with h | h <;> omega

/-- Witness for the amended C7: bootstrap at height 5 with the Work
event at block 5 satisfies the slack bound, and one step at block 6
restores the invariant. -/
theorem watermark_invariant_amended_witness :
    (initJobState 5 0 "a" [5]).lastWorkedBlock - 1 ≤
      (initJobState 5 0 "a" [5]).lastCheckedBlock ∧
    (processJobStep 10 ignoredArgsMessages (fun _ _ => LogQuery.ok []) true 6 0
        (initJobState 5 0 "a" [5]) true []).1.lastWorkedBlock ≤
      (processJobStep 10 ignoredArgsMessages (fun _ _ => LogQuery.ok []) true 6 0
        (initJobState 5 0 "a" [5]) true []).1.lastCheckedBlock :=
  ⟨watermark_invariant_amended.1 5 0 "a" [5] (by decide) (by decide),
   watermark_invariant_amended.2 10 ignoredArgsMessages (fun _ _ => LogQuery.ok [])
    true 6 0 (initJobState 5 0 "a" [5]) true [] (by decide) (by decide)⟩

/-- A reconciliation step never rewrites the identity key of a
record. -/
lemma processJobStep_address (threshold : Int) (ignored : List (List Nat))
    (getLogs : Int → Int → LogQuery) (dispatchOk : Bool)
    (blockNumber now : Int) (js : JobState) (canWork : Bool)
    (argsBytes : List Nat) :
    (processJobStep threshold ignored getLogs dispatchOk blockNumber now js
        canWork argsBytes).1.address = js.address := by
  have h2 := (thresholdCheck_fields threshold ignored dispatchOk
    (utf8Decode argsBytes)
    { updateOnWorkable getLogs blockNumber js canWork with
      lastUpdateTime := now }).2.2.1
  have h1 := (updateOnWorkable_fields getLogs blockNumber js canWork).2.2
  exact h2.trans h1

/-- The per-block loop maps the record list in place: the address
list is preserved even when an alert dispatch aborts the loop. -/
lemma processJobs_map_address (threshold : Int) (ignored : List (List Nat))
    (blockNumber now : Int) (inputs : Nat → JobInput) :
    ∀ (states : List JobState) (i : Nat),
      (processJobs threshold ignored blockNumber now inputs i states).1.map
        JobState.address = states.map JobState.address := by
  intro states
  induction states with
  | nil => intro i; rfl
  | cons js rest ih =>
    intro i
    simp only [processJobs]
    split
    · simp [processJobStep_address, ih]
    · simp [processJobStep_address]

/-- C10: a block reconciliation returns the store with exactly the
same address list, and over any sequence of post-bootstrap store
operations (blocks and janitor runs) the tracked address set never
grows, so an address absent from the store, for example one evicted
by the janitor, never becomes tracked again. -/
theorem tracked_addresses_never_grow :
    (∀ (threshold : Int) (ignored : List (List Nat)) (master : Nat)
        (blockNumber now : Int) (inputs : Nat → JobInput)
        (states : List JobState),
      trackedAddresses
        (processBlockNumber threshold ignored master blockNumber now inputs
          states).1 = trackedAddresses states) ∧
    (∀ (ops : List StoreOp) (states : List JobState) (a : String),
      a ∈ trackedAddresses (applyOps states ops) →
      a ∈ trackedAddresses states) := by
  have hblock : ∀ (threshold : Int) (ignored : List (List Nat)) (master : Nat)
      (blockNumber now : Int) (inputs : Nat → JobInput) (states : List JobState),
      trackedAddresses
        (processBlockNumber threshold ignored master blockNumber now inputs
          states).1 = trackedAddresses states := by
    intro threshold ignored master blockNumber now inputs states
    unfold processBlockNumber
    split
    · rfl
    · exact processJobs_map_address threshold ignored blockNumber now inputs states 0
  refine ⟨hblock, ?_⟩
  intro ops
  induction ops with
  | nil => intro states a h; exact h
  | cons op ops ih =>
    intro states a h
    have h1 : a ∈ trackedAddresses (applyOp states op) := ih (applyOp states op) a h
    cases op with
    | block threshold ignored master blockNumber now inputs =>
      simpa [applyOp, hblock] using h1
    | cleanup maxJobAge currentTime =>
      simp only [applyOp, trackedAddresses, cleanupInactiveJobs, List.mem_map] at h1 ⊢
      obtain ⟨s, hs, rfl⟩ := h1
      exact ⟨s, (List.mem_filter.mp hs).1, rfl⟩

/-- Witness for C10: a janitor run that keeps a fresh record leaves
its address tracked, and membership transports back to the initial
store. -/
theorem tracked_addresses_never_grow_witness :
    "a" ∈ trackedAddresses [JobState.mk "a" 0 0 0 0] :=
  tracked_addresses_never_grow.2 [StoreOp.cleanup 10 5]
    [JobState.mk "a" 0 0 0 0] "a" (by decide)

end KeeperBeeper
